import Mathlib

/-!
Shallow embedding of the geometry-ingestion pipeline of `src/src/render/model.c`
(functions `scan_obj_file`, `fill_vertices`, `load_model`).

Modelling choices, each tied to the C source:

* A source file is a `Source`: an `openable` flag (whether `fopen` succeeds) and
  the list of its lines.  Each line is abstracted by what `strncmp` prefix
  classification and `sscanf` extraction see of it (`ObjLine`): the constructor
  records which of the four markers `"v "`, `"vt "`, `"vn "`, `"f "` the line
  starts with (`.other` for any other line), and the payload records the list of
  successfully converted fields, in order, exactly as `sscanf` would deposit
  them in memory.  For a face line the nine conversion slots of the format
  string `"%d/%u/%u %d/%u/%u %d/%u/%u"` are listed in order
  i0,t0,n0,i1,t1,n1,i2,t2,n2; the number of parsed fields is the `sscanf`
  return value (capped at 9 by `List.take 9`).
* C `float` values are modelled by `Rat`.  The pipeline never computes with
  them — it only copies them from the file into buffers — so any type with a
  zero (the `calloc` fill) and decidable equality is faithful.
* The heap arrays (`v`, `i`, `textures`, `table`) are modelled as total maps
  that are zero everywhere initially (`calloc` zero-fills; out-of-bounds
  accesses, which the C code does not guard against, land at the corresponding
  offset of the unbounded map).
* `i` is `unsigned int *` while the face positions are scanned with `%d`: the
  parsed (possibly negative) value is stored reinterpreted modulo 2^32
  (`toU32`).  The texcoord slots `t` are a C `int[3]` and keep their value.
* The C code signals errors by a `printf` + `goto out` and a `false` return;
  each distinct failure site is named here by the error kind the specification
  assigns to it (`LoadError`).
-/

namespace Tawy

/-- Error kinds of the load pipeline.  Each corresponds to one distinct
failure site of `scan_obj_file` / `fill_vertices` in `model.c`. -/
inductive LoadError
  | SourceUnavailable
  | MalformedPositionLine
  | MalformedTexCoordLine
  | MalformedFaceLine
  | ZeroIndex
  | TexCoordConflict
  deriving DecidableEq

/-- One line of the source, as the two scanning passes observe it: the
constructor is the `strncmp` marker classification, the payload the fields
`sscanf` successfully converts (in order of the format string). -/
inductive ObjLine
  | v  (xs : List Rat)
  | vt (xs : List Rat)
  | vn (xs : List Rat)
  | f  (fs : List Int)
  | other
  deriving DecidableEq

/-- A source file: whether `fopen` succeeds, and the lines `getline` yields. -/
structure Source where
  openable : Bool
  lines : List ObjLine
  deriving DecidableEq

/-- The four counters of `scan_obj_file` (`vcount`, `tcount`, `icount`,
`ncount` in the C code; `icount` counts `f ` lines). -/
structure ScanCounts where
  vcount : Nat
  tcount : Nat
  icount : Nat
  ncount : Nat
  deriving DecidableEq

def isPosLine : ObjLine → Bool
  | .v _ => true
  | _ => false

def isTexLine : ObjLine → Bool
  | .vt _ => true
  | _ => false

def isNormLine : ObjLine → Bool
  | .vn _ => true
  | _ => false

def isFaceLine : ObjLine → Bool
  | .f _ => true
  | _ => false

def countPos (ls : List ObjLine) : Nat := ls.countP isPosLine
def countTex (ls : List ObjLine) : Nat := ls.countP isTexLine
def countNorm (ls : List ObjLine) : Nat := ls.countP isNormLine
def countFace (ls : List ObjLine) : Nat := ls.countP isFaceLine

/-- The `while (getline ...)` tally loop of `scan_obj_file`
(`model.c` lines 45–51). -/
def scanLines : List ObjLine → ScanCounts → ScanCounts
  | [], c => c
  | .v _ :: ls, c => scanLines ls { c with vcount := c.vcount + 1 }
  | .vt _ :: ls, c => scanLines ls { c with tcount := c.tcount + 1 }
  | .vn _ :: ls, c => scanLines ls { c with ncount := c.ncount + 1 }
  | .f _ :: ls, c => scanLines ls { c with icount := c.icount + 1 }
  | .other :: ls, c => scanLines ls c

/-- `scan_obj_file` (`model.c` lines 32–56): fails only when the source cannot
be opened, otherwise tallies the marker counts starting from the caller's
zero-initialised counters. -/
def scan_obj_file (src : Source) : Except LoadError ScanCounts :=
  if src.openable then .ok (scanLines src.lines ⟨0, 0, 0, 0⟩)
  else .error .SourceUnavailable

/-- The mutable state of `fill_vertices`: the output vertex float array `v`
(`vbuf`), the output index array `i` (`ibuf`, unsigned 32-bit slots), the
temporary `textures` array and `table`, and the three cursors (the C code
advances pointers `vptr`, `tptr`, `i`; here kept as offsets). -/
structure FillState where
  vbuf : Nat → Rat
  ibuf : Nat → Nat
  textures : Int → Rat
  table : Nat → Int
  vpos : Nat
  tpos : Nat
  ipos : Nat

/-- All arrays come from `calloc` (zero-filled), all cursors start at the
beginning of their arrays. -/
def initState : FillState :=
  { vbuf := fun _ => 0, ibuf := fun _ => 0, textures := fun _ => 0,
    table := fun _ => 0, vpos := 0, tpos := 0, ipos := 0 }

/-- Pointwise array update (a C store `a[k] = x`). -/
def upd {α β : Type} [DecidableEq α] (f : α → β) (k : α) (x : β) : α → β :=
  fun j => if j = k then x else f j

/-- Reinterpretation of an `int` value stored into an `unsigned int` slot. -/
def toU32 (x : Int) : Nat := (x % (2 ^ 32 : Int)).toNat

/-- Position sub-field of corner `j` of a face line, as read back from the
`unsigned int` buffer `i` after the `%d` conversion stored it. -/
def posIdx (fs9 : List Int) (j : Nat) : Nat := toU32 (fs9.getD (3 * j) 0)

/-- Texcoord sub-field of corner `j` of a face line, as held in the `int t[3]`
array. -/
def texIdx (fs9 : List Int) (j : Nat) : Int := fs9.getD (3 * j + 1) 0

/-- The three (position, texcoord) corner pairs of a face line. -/
def corners (fs9 : List Int) : List (Nat × Int) :=
  [(posIdx fs9 0, texIdx fs9 0), (posIdx fs9 1, texIdx fs9 1),
   (posIdx fs9 2, texIdx fs9 2)]

/-- The zero-index test of `model.c` lines 170–171:
`i[0] == 0 || i[1] == 0 || i[2] == 0 || t[0] == 0 || t[1] == 0 || t[2] == 0`. -/
def hasZeroIndex (fs9 : List Int) : Bool :=
  (posIdx fs9 0 == 0) || (posIdx fs9 1 == 0) || (posIdx fs9 2 == 0) ||
  (texIdx fs9 0 == 0) || (texIdx fs9 1 == 0) || (texIdx fs9 2 == 0)

/-- One iteration of the `for (int j = 0; j < 3; j++)` table loop of
`model.c` lines 183–192.  `p` is the (nonzero, already checked) unsigned
position index, `t` the `int` texcoord index; the table cell is
`table[p - 1]`. -/
def cornerStep (tbl : Nat → Int) (p : Nat) (t : Int) :
    Except LoadError (Nat → Int) :=
  if tbl (p - 1) ≠ 0 ∧ tbl (p - 1) ≠ t - 1 then .error .TexCoordConflict
  else .ok (upd tbl (p - 1) (t - 1))

/-- The full three-corner table loop. -/
def tableLoop (tbl : Nat → Int) : List (Nat × Int) → Except LoadError (Nat → Int)
  | [] => .ok tbl
  | (p, t) :: cs =>
    match cornerStep tbl p t with
    | .error e => .error e
    | .ok tbl' => tableLoop tbl' cs

/-- Processing of one line by the scan loop of `fill_vertices`
(`model.c` lines 118–196).  A partially converted line (`sscanf` returning
fewer fields than required) aborts the load; the partial stores `sscanf`
already made are irrelevant because the caller discards the buffers on
failure. -/
def fillLine (st : FillState) : ObjLine → Except LoadError FillState
  | .v xs =>
    if xs.length < 3 then .error .MalformedPositionLine
    else .ok { st with
      vbuf := upd (upd (upd st.vbuf st.vpos (xs.getD 0 0))
                       (st.vpos + 1) (xs.getD 1 0))
                  (st.vpos + 2) (xs.getD 2 0),
      vpos := st.vpos + 8 }
  | .vt xs =>
    if xs.length < 2 then .error .MalformedTexCoordLine
    else .ok { st with
      textures := upd (upd st.textures (st.tpos : Int) (xs.getD 0 0))
                      ((st.tpos : Int) + 1) (xs.getD 1 0),
      tpos := st.tpos + 2 }
  | .vn _ => .ok st
  | .other => .ok st
  | .f fs =>
    if fs.length < 9 then .error .MalformedFaceLine
    else if hasZeroIndex (fs.take 9) then .error .ZeroIndex
    else
      match tableLoop st.table (corners (fs.take 9)) with
      | .error e => .error e
      | .ok tbl => .ok { st with
          table := tbl,
          ibuf := upd (upd (upd st.ibuf st.ipos (posIdx (fs.take 9) 0))
                           (st.ipos + 1) (posIdx (fs.take 9) 1))
                      (st.ipos + 2) (posIdx (fs.take 9) 2),
          ipos := st.ipos + 3 }

/-- The line scan loop of `fill_vertices`; the first error aborts the scan
(`goto out`). -/
def fillLines (st : FillState) : List ObjLine → Except LoadError FillState
  | [] => .ok st
  | l :: ls =>
    match fillLine st l with
    | .error e => .error e
    | .ok st' => fillLines st' ls

/-- The texcoord back-fill loop of `model.c` lines 203–207: for every
`m < vlen`, `v[m*8+6] = textures[table[m]*2]` and
`v[m*8+7] = textures[table[m]*2+1]`.  `backfillV st n` is the vertex array
after the loop has run for `m = 0, …, n-1`. -/
def backfillV (st : FillState) : Nat → (Nat → Rat)
  | 0 => st.vbuf
  | n + 1 =>
    upd (upd (backfillV st n) (n * 8 + 6) (st.textures (st.table n * 2)))
        (n * 8 + 7) (st.textures (st.table n * 2 + 1))

/-- `fill_vertices` (`model.c` lines 91–215).  `vlen` is the position count
used to bound the back-fill loop; `tlen` only sizes the `textures` `calloc`
in C and is unused in the unbounded-map model. -/
def fill_vertices (src : Source) (vlen _tlen : Nat) :
    Except LoadError FillState :=
  if src.openable then
    match fillLines initState src.lines with
    | .error e => .error e
    | .ok st => .ok { st with vbuf := backfillV st vlen }
  else .error .SourceUnavailable

/-- `load_model` (`model.c` lines 218–245): first pass, allocation of
`vcount * 8` floats and `icount * 3` unsigned ints, second pass, then the
1-based → 0-based decrement loop (`--(*indices)[i]`, an unsigned-int
decrement, hence modulo 2^32).  Returns the flat vertex float list, the
index list, and the stored record counts `obj->vertices = vcount`,
`obj->elements = icount * 3`. -/
def load_model (src : Source) :
    Except LoadError (List Rat × List Nat × Nat × Nat) :=
  match scan_obj_file src with
  | .error e => .error e
  | .ok c =>
    match fill_vertices src c.vcount c.tcount with
    | .error e => .error e
    | .ok st =>
      .ok ((List.range (c.vcount * 8)).map st.vbuf,
           (List.range (c.icount * 3)).map
             (fun k => (st.ibuf k + (2 ^ 32 - 1)) % 2 ^ 32),
           c.vcount, c.icount * 3)

/-- `refsPos m l` holds when line `l` is a face line one of whose corners
references the vertex-array row `m`, i.e. stores to `table[m]`
(row = unsigned position index − 1). -/
def refsPos (m : Nat) : ObjLine → Bool
  | .f fs => (corners (fs.take 9)).any fun c => c.1 - 1 == m
  | _ => false

/-- Running the scan loop over a prefix of lines and then only the
three-corner table loop of one further face line: the table that loop leaves
(or the first error on the way). -/
def tableAfterFace (pre : List ObjLine) (fs : List Int) :
    Except LoadError (Nat → Int) :=
  match fillLines initState pre with
  | .error e => .error e
  | .ok st => tableLoop st.table (corners (fs.take 9))

/-- The three cursors of `fill_vertices` after a successful line scan
(before back-fill): how many float, texcoord-float and index slots the
second pass actually wrote. -/
def finalCursors (src : Source) : Option (Nat × Nat × Nat) :=
  match fillLines initState src.lines with
  | .error _ => none
  | .ok st => some (st.vpos, st.tpos, st.ipos)

/-! ### Concrete sources used to exercise the pipeline -/

/-- Two positions, two texcoords, and the face `f 1/1/1 2/2/1 1/2/1`:
position 1 is referenced first with texcoord 1, later with texcoord 2. -/
def srcC1 : Source :=
  ⟨true, [.v [0, 0, 0], .v [0, 0, 0], .vt [0, 0], .vt [1, 1],
          .f [1, 1, 1, 2, 2, 1, 1, 2, 1]]⟩

/-- The lines preceding the face of `srcC1w`. -/
def preC1w : List ObjLine :=
  [.v [0, 0, 0], .v [0, 0, 0], .vt [0, 0], .vt [1, 1]]

/-- Face `f 1/2/1 2/2/1 1/1/1`: position 1 first takes texcoord 2 (stored as
the nonzero table value 1), then is re-referenced with texcoord 1. -/
def fsC1w : List Int := [1, 2, 1, 2, 2, 1, 1, 1, 1]

def srcC1w : Source := ⟨true, preC1w ++ [.f fsC1w]⟩

/-- One position only, but the face references positions 1, 2 and 3. -/
def srcC2 : Source :=
  ⟨true, [.v [0, 0, 0], .vt [0, 0], .f [1, 1, 1, 2, 1, 1, 3, 1, 1]]⟩

/-- The single-triangle source of the spec's concrete scenario 1. -/
def srcC3w : Source :=
  ⟨true, [.v [0, 0, 0], .v [1, 0, 0], .v [0, 1, 0],
          .vt [0, 0], .vt [1, 0], .vt [0, 1],
          .f [1, 1, 1, 2, 2, 1, 3, 3, 1]]⟩

/-- A face whose first position sub-field is 0. -/
def srcC4w : Source :=
  ⟨true, [.v [0, 0, 0], .vt [1, 0], .f [0, 1, 1, 2, 2, 1, 3, 3, 1]]⟩

/-- A `v ` line from which only 2 floats parse. -/
def srcC5a : Source := ⟨true, [.v [0, 0]]⟩

/-- A `vt ` line from which only 1 float parses. -/
def srcC5b : Source := ⟨true, [.vt [1]]⟩

/-- An `f ` line from which only 8 sub-fields parse. -/
def srcC5c : Source := ⟨true, [.v [0, 0, 0], .f [1, 1, 1, 2, 2, 1, 1, 1]]⟩

/-- One line of each marker, all with malformed payloads, plus an unmarked
line: the first pass counts them all the same. -/
def srcC6w : Source :=
  ⟨true, [.v [0], .vt [], .vn [1, 2, 3], .f [7], .other]⟩

/-- A source that cannot be opened. -/
def srcC6n : Source := ⟨false, []⟩

def srcC7w : Source := ⟨true, [.v [1, 2, 3]]⟩

/-- A source with a `vn ` line carrying normal data. -/
def srcC8w : Source := ⟨true, [.v [1, 2, 3], .vn [9, 9, 9], .vt [5, 6]]⟩

/-- Two positions and two texcoords; the face references only position 2,
so position 1 is never referenced by any corner. -/
def srcC9w : Source :=
  ⟨true, [.v [1, 1, 1], .v [2, 2, 2], .vt [3, 4], .vt [5, 6],
          .f [2, 2, 2, 2, 2, 2, 2, 2, 2]]⟩

/-- A face whose first position sub-field is the negative integer −1. -/
def srcC10 : Source :=
  ⟨true, [.v [0, 0, 0], .v [0, 0, 0], .v [0, 0, 0], .vt [0, 0],
          .f [-1, 1, 1, 2, 2, 1, 3, 3, 1]]⟩

/-! ### Basic lemmas about the embedding -/

theorem upd_same {α β : Type} [DecidableEq α] (f : α → β) (k : α) (x : β) :
    upd f k x k = x := by
  simp [upd]

theorem upd_ne {α β : Type} [DecidableEq α] (f : α → β) (k j : α) (x : β)
    (h : j ≠ k) : upd f k x j = f j := by
  simp [upd, h]

theorem fillLines_append (st : FillState) (xs ys : List ObjLine) :
    fillLines st (xs ++ ys) =
      match fillLines st xs with
      | .error e => .error e
      | .ok st' => fillLines st' ys := by
  induction xs generalizing st with
  | nil => simp [fillLines]
  | cons l xs ih =>
    simp only [List.cons_append, fillLines]
    cases fillLine st l with
    | error e => rfl
    | ok st' => exact ih st'

theorem scanLines_eq (ls : List ObjLine) : ∀ c : ScanCounts,
    scanLines ls c =
      ⟨c.vcount + countPos ls, c.tcount + countTex ls,
       c.icount + countFace ls, c.ncount + countNorm ls⟩ := by
  induction ls with
  | nil => intro c; simp [scanLines, countPos, countTex, countFace, countNorm]
  | cons l ls ih =>
    intro c
    cases l <;>
      simp [scanLines, ih, countPos, countTex, countFace, countNorm,
        List.countP_cons, isPosLine, isTexLine, isNormLine, isFaceLine] <;>
      omega

theorem getD_map_range {α : Type} (f : Nat → α) (d : α) (n k : Nat)
    (h : k < n) : ((List.range n).map f).getD k d = f k := by
  rw [List.getD_eq_getElem?_getD]
  rw [List.getElem?_map, List.getElem?_range h]
  rfl

/-! ### Inversion lemmas for one line of the second pass -/

theorem fillLine_v_ok {st st' : FillState} {xs : List Rat}
    (h : fillLine st (.v xs) = .ok st') :
    3 ≤ xs.length ∧
    st' = { st with
      vbuf := upd (upd (upd st.vbuf st.vpos (xs.getD 0 0))
                       (st.vpos + 1) (xs.getD 1 0))
                  (st.vpos + 2) (xs.getD 2 0),
      vpos := st.vpos + 8 } := by
  by_cases hl : xs.length < 3
  · simp [fillLine, hl] at h
  · simp [fillLine, hl] at h
    refine ⟨by omega, ?_⟩
    simp only [List.getD_eq_getElem?_getD]
    exact h.symm

theorem fillLine_vt_ok {st st' : FillState} {xs : List Rat}
    (h : fillLine st (.vt xs) = .ok st') :
    2 ≤ xs.length ∧
    st' = { st with
      textures := upd (upd st.textures (st.tpos : Int) (xs.getD 0 0))
                      ((st.tpos : Int) + 1) (xs.getD 1 0),
      tpos := st.tpos + 2 } := by
  by_cases hl : xs.length < 2
  · simp [fillLine, hl] at h
  · simp [fillLine, hl] at h
    refine ⟨by omega, ?_⟩
    simp only [List.getD_eq_getElem?_getD]
    exact h.symm

theorem fillLine_vn_ok {st st' : FillState} {xs : List Rat}
    (h : fillLine st (.vn xs) = .ok st') : st' = st := by
  simp [fillLine] at h
  exact h.symm

theorem fillLine_other_ok {st st' : FillState}
    (h : fillLine st .other = .ok st') : st' = st := by
  simp [fillLine] at h
  exact h.symm

theorem fillLine_f_ok {st st' : FillState} {fs : List Int}
    (h : fillLine st (.f fs) = .ok st') :
    9 ≤ fs.length ∧ hasZeroIndex (fs.take 9) = false ∧
    ∃ tbl, tableLoop st.table (corners (fs.take 9)) = .ok tbl ∧
      st' = { st with
        table := tbl,
        ibuf := upd (upd (upd st.ibuf st.ipos (posIdx (fs.take 9) 0))
                         (st.ipos + 1) (posIdx (fs.take 9) 1))
                    (st.ipos + 2) (posIdx (fs.take 9) 2),
        ipos := st.ipos + 3 } := by
  by_cases hl : fs.length < 9
  · simp [fillLine, hl] at h
  · by_cases hz : hasZeroIndex (fs.take 9)
    · simp [fillLine, hl, hz] at h
    · refine ⟨by omega, by simpa using hz, ?_⟩
      simp only [fillLine, if_neg hl, Bool.not_eq_true] at h
      rw [if_neg (by simpa using hz)] at h
      cases htl : tableLoop st.table (corners (fs.take 9)) with
      | error e => rw [htl] at h; cases h
      | ok tbl =>
        rw [htl] at h
        exact ⟨tbl, rfl, by cases h; rfl⟩

/-! ### Invariants of the line-scan fold -/

/-- The cursors of the second pass advance by exactly the per-marker tallies
of the first pass: 8 floats per `v ` line, 2 floats per `vt ` line, 3 index
slots per `f ` line. -/
theorem fillLines_cursor (ls : List ObjLine) :
    ∀ st st' : FillState, fillLines st ls = .ok st' →
      st'.vpos = st.vpos + 8 * countPos ls ∧
      st'.tpos = st.tpos + 2 * countTex ls ∧
      st'.ipos = st.ipos + 3 * countFace ls := by
  induction ls with
  | nil =>
    intro st st' h
    cases h
    simp [countPos, countTex, countFace]
  | cons l ls ih =>
    intro st st' h
    simp only [fillLines] at h
    cases hl : fillLine st l with
    | error e => rw [hl] at h; cases h
    | ok st₁ =>
      rw [hl] at h
      have hc := ih st₁ st' h
      cases l with
      | v xs =>
        obtain ⟨-, rfl⟩ := fillLine_v_ok hl
        simp [countPos, countTex, countFace, List.countP_cons,
          isPosLine, isTexLine, isFaceLine] at hc ⊢
        omega
      | vt xs =>
        obtain ⟨-, rfl⟩ := fillLine_vt_ok hl
        simp [countPos, countTex, countFace, List.countP_cons,
          isPosLine, isTexLine, isFaceLine] at hc ⊢
        omega
      | vn xs =>
        cases fillLine_vn_ok hl
        simp [countPos, countTex, countFace, List.countP_cons,
          isPosLine, isTexLine, isFaceLine] at hc ⊢
        omega
      | f fs =>
        obtain ⟨-, -, tbl, -, rfl⟩ := fillLine_f_ok hl
        simp [countPos, countTex, countFace, List.countP_cons,
          isPosLine, isTexLine, isFaceLine] at hc ⊢
        omega
      | other =>
        cases fillLine_other_ok hl
        simp [countPos, countTex, countFace, List.countP_cons,
          isPosLine, isTexLine, isFaceLine] at hc ⊢
        omega

/-- The line scan writes vertex floats only at offsets 0, 1, 2 of each
8-float record: when the vertex cursor is record-aligned, slots whose offset
modulo 8 is 3, 4 or 5 are never touched. -/
theorem fillLines_vbuf_mod (ls : List ObjLine) :
    ∀ st st' : FillState, fillLines st ls = .ok st' → st.vpos % 8 = 0 →
      st'.vpos % 8 = 0 ∧
      ∀ k, k % 8 = 3 ∨ k % 8 = 4 ∨ k % 8 = 5 → st'.vbuf k = st.vbuf k := by
  induction ls with
  | nil =>
    intro st st' h hmod
    cases h
    exact ⟨hmod, fun k _ => rfl⟩
  | cons l ls ih =>
    intro st st' h hmod
    simp only [fillLines] at h
    cases hl : fillLine st l with
    | error e => rw [hl] at h; cases h
    | ok st₁ =>
      rw [hl] at h
      cases l with
      | v xs =>
        obtain ⟨-, rfl⟩ := fillLine_v_ok hl
        have ih' := ih _ st' h (by simp; omega)
        refine ⟨ih'.1, fun k hk => ?_⟩
        rw [ih'.2 k hk]
        simp only
        rw [upd_ne _ _ _ _ (by omega), upd_ne _ _ _ _ (by omega),
          upd_ne _ _ _ _ (by omega)]
      | vt xs =>
        obtain ⟨-, rfl⟩ := fillLine_vt_ok hl
        have ih' := ih _ st' h (by simpa using hmod)
        exact ⟨ih'.1, fun k hk => ih'.2 k hk⟩
      | vn xs =>
        cases fillLine_vn_ok hl
        exact ih _ st' h hmod
      | f fs =>
        obtain ⟨-, -, tbl, -, rfl⟩ := fillLine_f_ok hl
        have ih' := ih _ st' h (by simpa using hmod)
        exact ⟨ih'.1, fun k hk => ih'.2 k hk⟩
      | other =>
        cases fillLine_other_ok hl
        exact ih _ st' h hmod

/-- The three-corner table loop writes only at the rows its corners
reference. -/
theorem tableLoop_preserve :
    ∀ (cs : List (Nat × Int)) (tbl tbl' : Nat → Int),
      tableLoop tbl cs = .ok tbl' → ∀ m, (∀ c ∈ cs, ¬c.1 - 1 = m) →
      tbl' m = tbl m := by
  intro cs
  induction cs with
  | nil =>
    intro tbl tbl' h m _
    cases h
    rfl
  | cons c cs ih =>
    intro tbl tbl' h m hm
    simp only [tableLoop, cornerStep] at h
    by_cases hc : tbl (c.1 - 1) ≠ 0 ∧ tbl (c.1 - 1) ≠ c.2 - 1
    · rw [if_pos hc] at h; cases h
    · rw [if_neg hc] at h
      rw [ih _ _ h m (fun c' hc' => hm c' (List.mem_cons_of_mem _ hc'))]
      exact upd_ne _ _ _ _ (Ne.symm (hm c (List.mem_cons_self _ _)))

/-- The line scan writes `table` only at rows referenced by some face
corner. -/
theorem fillLines_table_unref (ls : List ObjLine) :
    ∀ st st' : FillState, fillLines st ls = .ok st' →
      ∀ m, (∀ l ∈ ls, refsPos m l = false) → st'.table m = st.table m := by
  induction ls with
  | nil =>
    intro st st' h m _
    cases h
    rfl
  | cons l ls ih =>
    intro st st' h m hm
    simp only [fillLines] at h
    cases hl : fillLine st l with
    | error e => rw [hl] at h; cases h
    | ok st₁ =>
      rw [hl] at h
      have htail : ∀ l' ∈ ls, refsPos m l' = false :=
        fun l' h' => hm l' (List.mem_cons_of_mem _ h')
      cases l with
      | v xs =>
        obtain ⟨-, rfl⟩ := fillLine_v_ok hl
        exact ih _ st' h m htail
      | vt xs =>
        obtain ⟨-, rfl⟩ := fillLine_vt_ok hl
        exact ih _ st' h m htail
      | vn xs =>
        cases fillLine_vn_ok hl
        exact ih _ st' h m htail
      | f fs =>
        obtain ⟨-, -, tbl, htbl, rfl⟩ := fillLine_f_ok hl
        have hhead := hm _ (List.mem_cons_self _ _)
        simp only [refsPos, List.any_eq_false, beq_iff_eq] at hhead
        rw [ih _ st' h m htail]
        exact tableLoop_preserve _ _ _ htbl m hhead
      | other =>
        cases fillLine_other_ok hl
        exact ih _ st' h m htail

/-- `textures` entries below the current texcoord cursor are never
overwritten by the rest of the scan. -/
theorem fillLines_textures_low (ls : List ObjLine) :
    ∀ st st' : FillState, fillLines st ls = .ok st' →
      ∀ j : Int, j < (st.tpos : Int) → st'.textures j = st.textures j := by
  induction ls with
  | nil =>
    intro st st' h j _
    cases h
    rfl
  | cons l ls ih =>
    intro st st' h j hj
    simp only [fillLines] at h
    cases hl : fillLine st l with
    | error e => rw [hl] at h; cases h
    | ok st₁ =>
      rw [hl] at h
      cases l with
      | v xs =>
        obtain ⟨-, rfl⟩ := fillLine_v_ok hl
        exact ih _ st' h j hj
      | vt xs =>
        obtain ⟨-, rfl⟩ := fillLine_vt_ok hl
        have := ih _ st' h j (by simp; omega)
        rw [this]
        simp only
        rw [upd_ne _ _ _ _ (by omega), upd_ne _ _ _ _ (by omega)]
      | vn xs =>
        cases fillLine_vn_ok hl
        exact ih _ st' h j hj
      | f fs =>
        obtain ⟨-, -, tbl, -, rfl⟩ := fillLine_f_ok hl
        exact ih _ st' h j hj
      | other =>
        cases fillLine_other_ok hl
        exact ih _ st' h j hj

/-- A stretch of lines containing no `vt ` line leaves the texcoord cursor
and the whole `textures` array untouched. -/
theorem fillLines_no_vt (ls : List ObjLine) :
    ∀ st st' : FillState, fillLines st ls = .ok st' →
      (∀ l ∈ ls, isTexLine l = false) →
      st'.tpos = st.tpos ∧ ∀ j : Int, st'.textures j = st.textures j := by
  induction ls with
  | nil =>
    intro st st' h _
    cases h
    exact ⟨rfl, fun _ => rfl⟩
  | cons l ls ih =>
    intro st st' h hm
    simp only [fillLines] at h
    cases hl : fillLine st l with
    | error e => rw [hl] at h; cases h
    | ok st₁ =>
      rw [hl] at h
      replace h : fillLines st₁ ls = .ok st' := h
      have htail : ∀ l' ∈ ls, isTexLine l' = false :=
        fun l' h' => hm l' (List.mem_cons_of_mem _ h')
      cases l with
      | v xs =>
        obtain ⟨-, rfl⟩ := fillLine_v_ok hl
        have hrec := ih _ st' h htail
        exact ⟨hrec.1, hrec.2⟩
      | vt xs =>
        have := hm _ (List.mem_cons_self _ _)
        simp [isTexLine] at this
      | vn xs =>
        cases fillLine_vn_ok hl
        exact ih _ st' h htail
      | f fs =>
        obtain ⟨-, -, tbl, -, rfl⟩ := fillLine_f_ok hl
        have hrec := ih _ st' h htail
        exact ⟨hrec.1, hrec.2⟩
      | other =>
        cases fillLine_other_ok hl
        exact ih _ st' h htail

/-! ### Back-fill loop lemmas -/

/-- The back-fill loop writes only texture slots (offsets 6 and 7 modulo 8). -/
theorem backfillV_mid (st : FillState) :
    ∀ n k, k % 8 = 3 ∨ k % 8 = 4 ∨ k % 8 = 5 → backfillV st n k = st.vbuf k := by
  intro n
  induction n with
  | zero => intro k _; rfl
  | succ n ih =>
    intro k hk
    simp only [backfillV]
    rw [upd_ne _ _ _ _ (by omega), upd_ne _ _ _ _ (by omega)]
    exact ih k hk

/-- What the back-fill loop writes into the two texture slots of row `m`. -/
theorem backfillV_at (st : FillState) :
    ∀ n m, m < n →
      backfillV st n (m * 8 + 6) = st.textures (st.table m * 2) ∧
      backfillV st n (m * 8 + 7) = st.textures (st.table m * 2 + 1) := by
  intro n
  induction n with
  | zero => intro m hm; omega
  | succ n ih =>
    intro m hm
    by_cases hmn : m = n
    · subst hmn
      constructor
      · simp only [backfillV]
        rw [upd_ne _ _ _ _ (by omega), upd_same]
      · simp only [backfillV]
        rw [upd_same]
    · have hm' : m < n := by omega
      constructor
      · simp only [backfillV]
        rw [upd_ne _ _ _ _ (by omega), upd_ne _ _ _ _ (by omega)]
        exact (ih m hm').1
      · simp only [backfillV]
        rw [upd_ne _ _ _ _ (by omega), upd_ne _ _ _ _ (by omega)]
        exact (ih m hm').2

/-! ### Inversion and error propagation for the whole load -/

/-- Unfolding a successful `load_model` run into its constituents. -/
theorem load_model_ok_inv {src : Source} {v : List Rat} {inds : List Nat}
    {vc ic : Nat} (h : load_model src = .ok (v, inds, vc, ic)) :
    src.openable = true ∧
    vc = countPos src.lines ∧ ic = 3 * countFace src.lines ∧
    ∃ st, fillLines initState src.lines = .ok st ∧
      v = (List.range (vc * 8)).map (backfillV st vc) ∧
      inds = (List.range ic).map
        (fun k => (st.ibuf k + (2 ^ 32 - 1)) % 2 ^ 32) := by
  by_cases ho : src.openable
  · have hc : scan_obj_file src =
        .ok ⟨countPos src.lines, countTex src.lines, countFace src.lines,
             countNorm src.lines⟩ := by
      simp [scan_obj_file, ho, scanLines_eq]
    rw [load_model, hc] at h
    simp only [fill_vertices, ho, if_true] at h
    cases hf : fillLines initState src.lines with
    | error e => rw [hf] at h; cases h
    | ok st =>
      rw [hf] at h
      simp only at h
      cases h
      exact ⟨ho, rfl, by ring, st, rfl, rfl, rfl⟩
  · simp only [load_model, scan_obj_file, ho, if_false] at h
    cases h

/-- If the line scan of the second pass fails with `e`, the whole load fails
with `e` and produces no buffers. -/
theorem load_model_error_fill {src : Source} {e : LoadError}
    (h1 : src.openable = true)
    (hfill : fillLines initState src.lines = .error e) :
    load_model src = .error e := by
  have hc : scan_obj_file src =
      .ok ⟨countPos src.lines, countTex src.lines, countFace src.lines,
           countNorm src.lines⟩ := by
    simp [scan_obj_file, h1, scanLines_eq]
  rw [load_model, hc]
  simp only [fill_vertices, h1, if_true, hfill]

/-- If the scan of a line prefix succeeds and the next line always fails
with error `e` (whatever the state), the whole load fails with `e` and
produces no buffers. -/
theorem load_model_error_mid {src : Source} {pre post : List ObjLine}
    {l : ObjLine} {e : LoadError} (h1 : src.openable = true)
    (h2 : src.lines = pre ++ l :: post)
    (hok : (fillLines initState pre).isOk = true)
    (hl : ∀ st, fillLine st l = .error e) :
    load_model src = .error e := by
  cases hfp : fillLines initState pre with
  | error e' => rw [hfp] at hok; cases hok
  | ok st =>
    have hfill : fillLines initState src.lines = .error e := by
      rw [h2, fillLines_append, hfp]
      simp only [fillLines, hl st]
    have hc : scan_obj_file src =
        .ok ⟨countPos src.lines, countTex src.lines, countFace src.lines,
             countNorm src.lines⟩ := by
      simp [scan_obj_file, h1, scanLines_eq]
    rw [load_model, hc]
    simp only [fill_vertices, h1, if_true, hfill]

/-! ### The claims -/

/-- Claim C1 is refuted as stated: in `srcC1` position index 1 is referenced
by two face corners carrying the two distinct texcoord indices 1 and 2
(face `f 1/1/1 2/2/1 1/2/1`, the claim's own example), yet the load does not
fail with TexCoordConflict — it succeeds and produces buffers.  The first
reference stores texcoord 1 decremented, i.e. 0, into the table, which is
exactly the unset sentinel, so the later contradicting reference silently
overwrites it. -/
theorem tawy_C1_counterexample :
    load_model srcC1 =
      .ok ([0, 0, 0, 0, 0, 0, 1, 1, 0, 0, 0, 0, 0, 0, 1, 1],
           [0, 1, 0], 2, 3) := by
  rfl

/-- Claim C1 (amended): a contradicting re-reference is detected only against
a nonzero recorded table value (a recorded texcoord index ≥ 2); a recorded
texcoord index of 1 is stored as 0 and is indistinguishable from unset.
Formally: whenever a face line passes the shape and zero checks but its
three-corner table loop, run on the table left by the preceding lines,
reports TexCoordConflict (`tableAfterFace`), the whole load fails with
TexCoordConflict and produces no output buffers. -/
theorem tawy_C1_amended (src : Source) (pre post : List ObjLine)
    (fs : List Int) (h1 : src.openable = true)
    (h2 : src.lines = pre ++ .f fs :: post) (h3 : 9 ≤ fs.length)
    (h4 : hasZeroIndex (fs.take 9) = false)
    (h5 : tableAfterFace pre fs = .error .TexCoordConflict) :
    load_model src = .error .TexCoordConflict := by
  apply load_model_error_fill h1
  rw [h2, fillLines_append]
  unfold tableAfterFace at h5
  cases hfp : fillLines initState pre with
  | error e =>
    rw [hfp] at h5
    simp only at h5
    obtain rfl : e = .TexCoordConflict := Except.error.inj h5
    rfl
  | ok st =>
    rw [hfp] at h5
    simp only at h5 ⊢
    have hline : fillLine st (.f fs) = .error .TexCoordConflict := by
      simp only [fillLine]
      rw [if_neg (by omega), if_neg (by simp [h4]), h5]
    simp only [fillLines, hline]

/-- Witness for the amended claim C1: in `srcC1w` position 1 first records
texcoord 2 (table value 1 ≠ 0) and is then re-referenced with texcoord 1,
and the load fails with TexCoordConflict. -/
theorem tawy_C1_witness :
    tableAfterFace preC1w fsC1w = .error .TexCoordConflict ∧
    load_model srcC1w = .error .TexCoordConflict :=
  ⟨by rfl,
   tawy_C1_amended srcC1w preC1w [] fsC1w rfl rfl (by decide) (by decide)
     (by rfl)⟩

/-- Claim C2 fails on the code (code bug): `fill_vertices` checks face
position indices only against 0, never against the position count, so a face
may reference a position past the end of the vertex buffer.  `srcC2` declares
one position but its face references positions 1, 2 and 3; the load succeeds
and the final IndexBuffer `[0, 1, 2]` contains the entries 1 and 2, both ≥
the VertexBuffer length 1 (in the C code the corresponding `table[i[j]-1]`
stores are out-of-bounds heap writes). -/
theorem tawy_C2_bug :
    load_model srcC2 = .ok ([0, 0, 0, 0, 0, 0, 0, 0], [0, 1, 2], 1, 3) ∧
    ¬ ∀ e ∈ ([0, 1, 2] : List Nat), e < 1 := by
  exact ⟨by rfl, by decide⟩

/-- Claim C3: on any source for which the load succeeds, the VertexBuffer is
exactly 8 × (first-pass position count) floats — i.e. one 8-float record per
counted position — the IndexBuffer exactly 3 × (first-pass face count)
entries, the stored counts agree, and the second pass's three cursors land
exactly on the sizes fixed by the first pass: it wrote exactly the counted
number of records into the fixed-size buffers, no more, no fewer. -/
theorem tawy_C3 (src : Source) (c : ScanCounts) (v : List Rat)
    (inds : List Nat) (vc ic : Nat)
    (hscan : scan_obj_file src = .ok c)
    (hload : load_model src = .ok (v, inds, vc, ic)) :
    v.length = c.vcount * 8 ∧ inds.length = c.icount * 3 ∧
    vc = c.vcount ∧ ic = c.icount * 3 ∧
    finalCursors src = some (c.vcount * 8, c.tcount * 2, c.icount * 3) := by
  obtain ⟨ho, hvc, hic, st, hfill, hv, hi⟩ := load_model_ok_inv hload
  have hc : scan_obj_file src =
      .ok ⟨countPos src.lines, countTex src.lines, countFace src.lines,
           countNorm src.lines⟩ := by
    simp [scan_obj_file, ho, scanLines_eq]
  rw [hc] at hscan
  have hcs : c = ⟨countPos src.lines, countTex src.lines,
      countFace src.lines, countNorm src.lines⟩ :=
    (Except.ok.inj hscan).symm
  have hveq : c.vcount = countPos src.lines := by rw [hcs]
  have hteq : c.tcount = countTex src.lines := by rw [hcs]
  have hieq : c.icount = countFace src.lines := by rw [hcs]
  have hcur := fillLines_cursor src.lines initState st hfill
  have hv0 : initState.vpos = 0 := rfl
  have ht0 : initState.tpos = 0 := rfl
  have hi0 : initState.ipos = 0 := rfl
  have hfc : finalCursors src = some (st.vpos, st.tpos, st.ipos) := by
    rw [finalCursors, hfill]
  refine ⟨?_, ?_, ?_, ?_, ?_⟩
  · rw [hv]; simp; omega
  · rw [hi]; simp; omega
  · omega
  · omega
  · rw [hfc]
    have e1 : st.vpos = c.vcount * 8 := by omega
    have e2 : st.tpos = c.tcount * 2 := by omega
    have e3 : st.ipos = c.icount * 3 := by omega
    rw [e1, e2, e3]

/-- Witness for claim C3 at the spec's one-triangle scenario: counts
(3 positions, 3 texcoords, 1 face), a 24-float vertex buffer, a 3-entry index
buffer, and cursors landing exactly on the counted sizes. -/
theorem tawy_C3_witness :
    scan_obj_file srcC3w = .ok ⟨3, 3, 1, 0⟩ ∧
    (([0, 0, 0, 0, 0, 0, 0, 0, 1, 0, 0, 0, 0, 0, 1, 0,
       0, 1, 0, 0, 0, 0, 0, 1] : List Rat).length = 3 * 8 ∧
     ([0, 1, 2] : List Nat).length = 1 * 3 ∧ 3 = 3 ∧ 3 = 1 * 3 ∧
     finalCursors srcC3w = some (3 * 8, 3 * 2, 1 * 3)) :=
  ⟨by rfl,
   tawy_C3 srcC3w ⟨3, 3, 1, 0⟩
     [0, 0, 0, 0, 0, 0, 0, 0, 1, 0, 0, 0, 0, 0, 1, 0,
      0, 1, 0, 0, 0, 0, 0, 1] [0, 1, 2] 3 3 (by rfl) (by rfl)⟩

/-- Claim C4: a face line with exactly-parsed 9 sub-fields one of whose
position sub-fields (slots 0, 3, 6) or texcoord sub-fields (slots 1, 4, 7)
equals 0 makes the load fail with ZeroIndex — and hence produce no output
buffers — as soon as the scan reaches it (the lines before it processed
without error; per the spec's propagation policy the assembler surfaces the
first error encountered). -/
theorem tawy_C4 (src : Source) (pre post : List ObjLine) (fs : List Int)
    (h1 : src.openable = true) (h2 : src.lines = pre ++ .f fs :: post)
    (h3 : 9 ≤ fs.length)
    (h4 : posIdx (fs.take 9) 0 = 0 ∨ posIdx (fs.take 9) 1 = 0 ∨
          posIdx (fs.take 9) 2 = 0 ∨ texIdx (fs.take 9) 0 = 0 ∨
          texIdx (fs.take 9) 1 = 0 ∨ texIdx (fs.take 9) 2 = 0)
    (hok : (fillLines initState pre).isOk = true) :
    load_model src = .error .ZeroIndex := by
  have hz : hasZeroIndex (fs.take 9) = true := by
    rcases h4 with h4 | h4 | h4 | h4 | h4 | h4 <;>
      simp [hasZeroIndex, h4]
  apply load_model_error_mid h1 h2 hok
  intro st
  simp only [fillLine]
  rw [if_neg (by omega), if_pos hz]

/-- Witness for claim C4: `srcC4w` holds the face `f 0/1/1 2/2/1 3/3/1`
(position sub-field 0) after a valid `v ` and `vt ` line, and the load fails
with ZeroIndex. -/
theorem tawy_C4_witness : load_model srcC4w = .error .ZeroIndex :=
  tawy_C4 srcC4w [.v [0, 0, 0], .vt [1, 0]] [] [0, 1, 1, 2, 2, 1, 3, 3, 1]
    rfl rfl (by decide) (Or.inl (by decide)) (by rfl)

/-- Claim C5: once the scan reaches them (all earlier lines processed without
error), a `v ` line with fewer than 3 parsed floats fails the load with
MalformedPositionLine, a `vt ` line with fewer than 2 parsed floats with
MalformedTexCoordLine, and an `f ` line with fewer than 9 parsed sub-fields
(e.g. 8) with MalformedFaceLine; in each case no output buffers are
produced. -/
theorem tawy_C5 :
    (∀ (src : Source) (pre post : List ObjLine) (xs : List Rat),
      src.openable = true → src.lines = pre ++ .v xs :: post →
      xs.length < 3 → (fillLines initState pre).isOk = true →
      load_model src = .error .MalformedPositionLine) ∧
    (∀ (src : Source) (pre post : List ObjLine) (xs : List Rat),
      src.openable = true → src.lines = pre ++ .vt xs :: post →
      xs.length < 2 → (fillLines initState pre).isOk = true →
      load_model src = .error .MalformedTexCoordLine) ∧
    (∀ (src : Source) (pre post : List ObjLine) (fs : List Int),
      src.openable = true → src.lines = pre ++ .f fs :: post →
      fs.length < 9 → (fillLines initState pre).isOk = true →
      load_model src = .error .MalformedFaceLine) := by
  refine ⟨?_, ?_, ?_⟩ <;>
    (intro src pre post xs h1 h2 hlen hok;
     apply load_model_error_mid h1 h2 hok;
     intro st;
     simp [fillLine, hlen])

/-- Witness for claim C5: a `v ` line with 2 floats, a `vt ` line with 1
float, and an `f ` line with 8 sub-fields each fail with the corresponding
malformed-line error. -/
theorem tawy_C5_witness :
    load_model srcC5a = .error .MalformedPositionLine ∧
    load_model srcC5b = .error .MalformedTexCoordLine ∧
    load_model srcC5c = .error .MalformedFaceLine :=
  ⟨tawy_C5.1 srcC5a [] [] [0, 0] rfl rfl (by decide) (by rfl),
   tawy_C5.2.1 srcC5b [] [] [1] rfl rfl (by decide) (by rfl),
   tawy_C5.2.2 srcC5c [.v [0, 0, 0]] [] [1, 1, 1, 2, 2, 1, 1, 1]
     rfl rfl (by decide) (by rfl)⟩

/-- Claim C6: on an openable source the first pass always succeeds and
returns exactly the tallies of lines carrying each of the four markers —
independent of the lines' field content, so a malformed `v ` line is counted,
not detected — and it fails, with SourceUnavailable, exactly when the source
cannot be opened. -/
theorem tawy_C6 (src : Source) :
    (src.openable = true →
      scan_obj_file src =
        .ok ⟨countPos src.lines, countTex src.lines, countFace src.lines,
             countNorm src.lines⟩) ∧
    (src.openable = false →
      scan_obj_file src = .error .SourceUnavailable) := by
  constructor
  · intro h
    simp [scan_obj_file, h, scanLines_eq]
  · intro h
    simp [scan_obj_file, h]

/-- Witness for claim C6: `srcC6w` holds one line of each marker, each with
malformed field content, plus an unmarked line; the scanner counts
1/1/1/1 regardless.  The unopenable `srcC6n` yields SourceUnavailable. -/
theorem tawy_C6_witness :
    scan_obj_file srcC6w = .ok ⟨1, 1, 1, 1⟩ ∧
    scan_obj_file srcC6n = .error .SourceUnavailable := by
  constructor
  · rw [(tawy_C6 srcC6w).1 rfl]
    rfl
  · exact (tawy_C6 srcC6n).2 rfl

/-- Claim C7: the full load (first pass then second pass) is a pure function
of the source content in this embedding, so two runs on the same unmodified
source yield bit-identical VertexBuffer and IndexBuffer contents and
identical counts. -/
theorem tawy_C7 (src : Source)
    (r₁ r₂ : Except LoadError (List Rat × List Nat × Nat × Nat))
    (h₁ : load_model src = r₁) (h₂ : load_model src = r₂) : r₁ = r₂ :=
  h₁ ▸ h₂

/-- Witness for claim C7: two runs of the load on `srcC7w` yield the same
result value. -/
theorem tawy_C7_witness :
    (Except.ok ([1, 2, 3, 0, 0, 0, 0, 0], [], 1, 0) :
      Except LoadError (List Rat × List Nat × Nat × Nat)) =
    .ok ([1, 2, 3, 0, 0, 0, 0, 0], [], 1, 0) :=
  tawy_C7 srcC7w _ _ (by rfl) (by rfl)

/-- Claim C8: on every successful load — also when the source contains `vn `
lines — the normal slots (offsets 3–5) of every VertexBuffer record still
hold their calloc zero: the second pass writes only offsets 0–2 (from `v `
lines) and 6–7 (texcoord back-fill), and `vn ` lines are never parsed into
the output. -/
theorem tawy_C8 (src : Source) (v : List Rat) (inds : List Nat)
    (vc ic m : Nat) (h : load_model src = .ok (v, inds, vc, ic))
    (hm : m < vc) :
    v.getD (m * 8 + 3) 0 = 0 ∧ v.getD (m * 8 + 4) 0 = 0 ∧
    v.getD (m * 8 + 5) 0 = 0 := by
  obtain ⟨ho, hvc, hic, st, hfill, hv, hi⟩ := load_model_ok_inv h
  have hmod := fillLines_vbuf_mod src.lines initState st hfill rfl
  have key : ∀ off, off = 3 ∨ off = 4 ∨ off = 5 →
      backfillV st vc (m * 8 + off) = 0 := by
    intro off hoff
    rw [backfillV_mid st vc _ (by omega), hmod.2 _ (by omega)]
    rfl
  subst hv
  refine ⟨?_, ?_, ?_⟩
  · rw [getD_map_range _ _ _ _ (by omega)]
    exact key 3 (by omega)
  · rw [getD_map_range _ _ _ _ (by omega)]
    exact key 4 (by omega)
  · rw [getD_map_range _ _ _ _ (by omega)]
    exact key 5 (by omega)

/-- Witness for claim C8: `srcC8w` carries a `vn 9 9 9` line, yet the single
output record is `[1, 2, 3, 0, 0, 0, 5, 6]` — normal slots 3–5 all zero. -/
theorem tawy_C8_witness :
    load_model srcC8w = .ok ([1, 2, 3, 0, 0, 0, 5, 6], [], 1, 0) ∧
    (([1, 2, 3, 0, 0, 0, 5, 6] : List Rat).getD 3 0 = 0 ∧
     ([1, 2, 3, 0, 0, 0, 5, 6] : List Rat).getD 4 0 = 0 ∧
     ([1, 2, 3, 0, 0, 0, 5, 6] : List Rat).getD 5 0 = 0) :=
  ⟨by rfl,
   tawy_C8 srcC8w [1, 2, 3, 0, 0, 0, 5, 6] [] 1 0 0 (by rfl) (by decide)⟩

/-- Claim C9: on a successful load of a source whose first `vt ` line carries
(u, w), a position row `m` that no face corner references keeps table value 0
— which selects texcoord ordinal 1 — so the back-fill writes the first
texture-coordinate record (u, w) into its offsets 6–7, not zeros or an
absent value. -/
theorem tawy_C9 (src : Source) (v : List Rat) (inds : List Nat)
    (vc ic m : Nat) (pre post : List ObjLine) (u w : Rat) (rest : List Rat)
    (h : load_model src = .ok (v, inds, vc, ic))
    (hsplit : src.lines = pre ++ .vt (u :: w :: rest) :: post)
    (hpre : ∀ l ∈ pre, isTexLine l = false)
    (hm : m < vc)
    (href : ∀ l ∈ src.lines, refsPos m l = false) :
    v.getD (m * 8 + 6) 0 = u ∧ v.getD (m * 8 + 7) 0 = w := by
  obtain ⟨ho, hvc, hic, st, hfill, hv, hi⟩ := load_model_ok_inv h
  have htab : st.table m = 0 := by
    rw [fillLines_table_unref src.lines initState st hfill m href]
    rfl
  have hfill2 := hfill
  rw [hsplit, fillLines_append] at hfill2
  cases hp : fillLines initState pre with
  | error e =>
    rw [hp] at hfill2
    simp at hfill2
  | ok st₁ =>
    rw [hp] at hfill2
    replace hfill2 : fillLines st₁ (.vt (u :: w :: rest) :: post) = .ok st :=
      hfill2
    obtain ⟨ht1, htex1⟩ := fillLines_no_vt pre initState st₁ hp hpre
    have htpos1 : st₁.tpos = 0 := by rw [ht1]; rfl
    simp only [fillLines] at hfill2
    cases hq : fillLine st₁ (.vt (u :: w :: rest)) with
    | error e =>
      rw [hq] at hfill2
      simp at hfill2
    | ok st₂ =>
      rw [hq] at hfill2
      replace hfill2 : fillLines st₂ post = .ok st := hfill2
      obtain ⟨-, hst₂⟩ := fillLine_vt_ok hq
      have htex2_0 : st₂.textures 0 = u := by
        rw [hst₂]
        simp [upd, htpos1]
      have htex2_1 : st₂.textures 1 = w := by
        rw [hst₂]
        simp [upd, htpos1]
      have htpos2 : st₂.tpos = 2 := by
        rw [hst₂]
        simp [htpos1]
      have hst0 : st.textures 0 = u := by
        rw [fillLines_textures_low post st₂ st hfill2 0
          (by rw [htpos2]; norm_num)]
        exact htex2_0
      have hst1 : st.textures 1 = w := by
        rw [fillLines_textures_low post st₂ st hfill2 1
          (by rw [htpos2]; norm_num)]
        exact htex2_1
      subst hv
      have hb := backfillV_at st vc m hm
      constructor
      · rw [getD_map_range _ _ _ _ (by omega), hb.1, htab]
        simpa using hst0
      · rw [getD_map_range _ _ _ _ (by omega), hb.2, htab]
        simpa using hst1

/-- Witness for claim C9: in `srcC9w` the face references only position 2;
position 1 (row 0) ends up with offsets 6–7 equal to (3, 4), the first `vt `
record of the file. -/
theorem tawy_C9_witness :
    load_model srcC9w =
      .ok ([1, 1, 1, 0, 0, 0, 3, 4, 2, 2, 2, 0, 0, 0, 5, 6],
           [1, 1, 1], 2, 3) ∧
    (([1, 1, 1, 0, 0, 0, 3, 4, 2, 2, 2, 0, 0, 0, 5, 6] :
        List Rat).getD 6 0 = 3 ∧
     ([1, 1, 1, 0, 0, 0, 3, 4, 2, 2, 2, 0, 0, 0, 5, 6] :
        List Rat).getD 7 0 = 4) :=
  ⟨by rfl,
   tawy_C9 srcC9w [1, 1, 1, 0, 0, 0, 3, 4, 2, 2, 2, 0, 0, 0, 5, 6]
     [1, 1, 1] 2 3 0 [.v [1, 1, 1], .v [2, 2, 2]]
     [.vt [5, 6], .f [2, 2, 2, 2, 2, 2, 2, 2, 2]] 3 4 []
     (by rfl) (by rfl) (by decide) (by decide) (by decide)⟩

/-- Claim C10: the zero-index test compares each sub-field against 0 only.
`srcC10` holds the face `f -1/1/1 2/2/1 3/3/1`: the position sub-field −1 is
stored into the unsigned index slot as 2^32 − 1 (reinterpretation modulo
2^32), which is nonzero, so no ZeroIndex error is raised and assembly runs
to completion — the decrement loop then leaves 2^32 − 2 = 4294967294 as the
first IndexBuffer entry. -/
theorem tawy_C10 :
    load_model srcC10 =
      .ok (List.replicate 24 (0 : Rat), [4294967294, 1, 2], 3, 3) ∧
    load_model srcC10 ≠ .error .ZeroIndex := by
  have h1 : load_model srcC10 =
      .ok (List.replicate 24 (0 : Rat), [4294967294, 1, 2], 3, 3) := by rfl
  refine ⟨h1, fun hc => ?_⟩
  rw [h1] at hc
  exact Except.noConfusion hc

end Tawy
